import Mathlib

/-!
# git-ritual — formal verification of the replication engine

Shallow embedding of the git-ritual batch-replication tool (TypeScript) in
Lean 4. External collaborators (git subprocesses, interactive prompts) are
modelled as explicit environment values passed to every function; each
embedded definition mirrors the control flow of the corresponding source
function.

Sources embedded here:
* `src/steps/shared/finders.ts` — `getPatchId`, `getRecentPatchIds`,
  `findAppliedHashesByPatchId`, `filterCommitsToApply`,
  `resolveTargetBranches`
* `src/steps/shared/filter-commits-to-apply.ts` — the variant of
  `filterCommitsToApply` built on `git.isChangeApplied`
* `src/utils/git.ts` — `isChangeApplied`, `isBranchNameInUse`,
  `getAllBranchNames`, `isRepositoryInSafeState`
* `src/steps/shared/lifecycle.ts` — `isRepositoryInSafeState`,
  `safeCheckoutOriginalBranch`, `prepareBranch`
* `src/utils/perform-cherry-pick-flow.ts` — `performCherryPickFlow`
* `src/steps/push/index.ts` — `handlePush`
* `src/steps/cherry-pick/index.ts` (current handler) — `handleCherryPick`
* `src/steps/creat-with-pick/index.ts` — `handleCreateWithPick`
* the shared summary module — `reportAndFinalizeStep`
-/

namespace GitRitual

/-- One git subprocess invocation, recorded in execution traces. -/
inductive GitOp where
  | checkout (branch : String)
  | fetch (remote branch : String)
  | pull (remote branch : String)
  | cherryPick (hash : String)
  | cherryPickContinue
  | cherryPickSkip
  | cherryPickAbort
  | push (remote branch : String)
  | createBranch (newBranch baseBranch : String)
  | reset
  | statusProbe
  deriving DecidableEq, Repr

/-- Which of the recorded operations mutate the workspace.  `statusProbe`
(`git status` / marker-file probe) is the only read-only one. -/
def GitOp.isMutating : GitOp → Bool
  | .statusProbe => false
  | _ => true

/-! ## The git environment

The underlying version-control tool is a black box (spec §6); we model the
subprocess results the fingerprint index consumes:

* `hist b` — the commit hashes of branch `b`, most recent first
  (`git log <b>` before `--max-count` truncation);
* `logOk b` — whether `git log <b>` succeeds (a failing log is swallowed by
  `getRecentPatchIds`, which then returns its empty accumulator);
* `patchOut c` — the stdout of `git show <c> | git patch-id`, or `none`
  when that pipeline fails (`getPatchId` catches and returns `null`). -/
structure GitEnv where
  hist : String → List String
  logOk : String → Bool
  patchOut : String → Option String

/-- `output.split(' ')[0]` of the patch-id pipeline output: the characters
before the first space. -/
def firstWord (s : String) : String :=
  String.mk (s.toList.takeWhile (fun ch => ch != ' '))

/-- JS `String.prototype.toLowerCase` (character-wise). -/
def jsToLower (s : String) : String :=
  String.mk (s.toList.map Char.toLower)

/-- JS `String.prototype.startsWith`. -/
def jsStartsWith (s pre : String) : Bool :=
  s.toList.take pre.toList.length == pre.toList

/-- JS `String.prototype.trim` (strip whitespace at both ends). -/
def jsTrim (s : String) : String :=
  String.mk
    (((s.toList.dropWhile Char.isWhitespace).reverse.dropWhile
      Char.isWhitespace).reverse)

/-- JS `String.prototype.split` on a single-character separator, over the
character list. -/
def splitCharList (c : Char) : List Char → List (List Char)
  | [] => [[]]
  | ch :: rest =>
      let r := splitCharList c rest
      if ch = c then [] :: r
      else
        match r with
        | [] => [[ch]]
        | w :: ws => (ch :: w) :: ws

/-- JS `String.prototype.split` on a single-character separator. -/
def jsSplit (c : Char) (s : String) : List String :=
  (splitCharList c s.toList).map String.mk

/-- `getPatchId` (finders.ts:52-64): run `git show <hash> | git patch-id`
and take the first whitespace-separated word; a failing subprocess yields
`null` (here `none`). -/
def getPatchId (env : GitEnv) (commitHash : String) : Option String :=
  (env.patchOut commitHash).map firstWord

/-- `git.log([branch, "--max-count=<count>"])`: the `count` most recent
commits of the branch, or `none` when the log call throws. -/
def gitLogHashes (env : GitEnv) (branch : String) (count : Nat) :
    Option (List String) :=
  if env.logOk branch then some ((env.hist branch).take count) else none

/-- `getRecentPatchIds` (finders.ts:66-89).  The TS signature is
`(branch, cwd, count = 500)`; the default is applied at call sites below.
Walks the `count` most recent commits and collects into a `Set` each
patch-id that is non-null and non-empty (`if (patchId)`); a failing log
leaves the accumulator empty. -/
def getRecentPatchIds (env : GitEnv) (branch : String) (count : Nat) :
    List String :=
  match gitLogHashes env branch count with
  | none => []
  | some commits =>
      commits.foldl
        (fun acc c =>
          match getPatchId env c with
          | none => acc
          | some patchId =>
              if patchId = "" then acc
              else if patchId ∈ acc then acc else acc ++ [patchId])
        []

/-- `findAppliedHashesByPatchId` (finders.ts:98-113): keep the source
hashes whose (truthy) patch-id occurs among the target branch's recent
patch-ids.  The call `getRecentPatchIds(targetBranch, cwd)` supplies no
count, so the default `500` applies. -/
def findAppliedHashesByPatchId (env : GitEnv) (sourceHashes : List String)
    (targetBranch : String) : List String :=
  let targetPatchIds := getRecentPatchIds env targetBranch 500
  sourceHashes.filter fun h =>
    match getPatchId env h with
    | none => false
    | some sourcePatchId =>
        sourcePatchId != "" && targetPatchIds.contains sourcePatchId

/-- `filterCommitsToApply` (finders.ts:15-50): compute the applied set via
`findAppliedHashesByPatchId`, then keep, in order, the input hashes not in
that set.  Note the TS function takes no depth parameter: call sites that
pass `globals.patchIdCheckDepth` as a fourth argument have it silently
dropped. -/
def filterCommitsToApply (env : GitEnv) (commitHashes : List String)
    (branch : String) : List String :=
  let appliedHashes := findAppliedHashesByPatchId env commitHashes branch
  commitHashes.filter fun h => !(appliedHashes.contains h)

/-- `isChangeApplied` (git.ts:61-76): absent (null or empty) source
patch-id → warn and return `false`; otherwise membership in the target
branch's recent patch-ids, where `getRecentPatchIds` in git.ts defaults to
`count = 200`. -/
def isChangeApplied (env : GitEnv) (sourceCommitHash targetBranch : String) :
    Bool :=
  match getPatchId env sourceCommitHash with
  | none => false
  | some sourcePatchId =>
      if sourcePatchId = "" then false
      else (getRecentPatchIds env targetBranch 200).contains sourcePatchId

/-- `filterCommitsToApply` (filter-commits-to-apply.ts:7-31): the variant
that asks `git.isChangeApplied` per hash and keeps the hashes for which it
is false, preserving order. -/
def filterCommitsToApplyV2 (env : GitEnv) (commitHashes : List String)
    (branch : String) : List String :=
  commitHashes.filter fun h => !(isChangeApplied env h branch)

/-- The per-hash predicate that `findAppliedHashesByPatchId` filters by:
truthy patch-id present among the branch's 500 most recent patch-ids.
This is spec §4.3's `isApplied` at the depth the finders module actually
uses. -/
def isAppliedFinders (env : GitEnv) (h branch : String) : Bool :=
  match getPatchId env h with
  | none => false
  | some sourcePatchId =>
      sourcePatchId != "" &&
        (getRecentPatchIds env branch 500).contains sourcePatchId

/-- Model of the workspace after a completed replication run of `hashes`
onto `branch` (spec §4.5 together with the external tool's guarantee that
a cherry-picked commit carries the same content diff, hence the same
patch-id, as its source).  The commits that `filterCommitsToApply`
selected are re-created on top of the branch under fresh identifiers
(`picked/<hash>`) whose patch-id pipeline output equals the source
commit's; everything else is unchanged. -/
def afterRun (env : GitEnv) (branch : String) (hashes : List String) :
    GitEnv :=
  let picked := filterCommitsToApply env hashes branch
  { hist := fun b =>
      if b = branch then picked.map (fun h => "picked/" ++ h) ++ env.hist b
      else env.hist b
    logOk := env.logOk
    patchOut := fun c =>
      match picked.find? (fun h => c == "picked/" ++ h) with
      | some h => env.patchOut h
      | none => env.patchOut c }

/-! ### Spec-side fingerprint index (for the depth-configurability claim)

The spec (§4.3, §6) states that `recentFingerprints` walks a
caller-configurable `depth` (global `patchIdCheckDepth`, default 30).
These definitions follow the spec's words at an explicit depth, to be
compared with the source functions above. -/

/-- Spec §4.3 `recentFingerprints(branch, depth)`: the same walk as the
source, at the caller-supplied depth. -/
def specRecentFingerprints (env : GitEnv) (branch : String) (depth : Nat) :
    List String :=
  getRecentPatchIds env branch depth

/-- Spec §4.3 `isApplied(commit, branch, depth)`: fingerprint membership at
the caller-supplied depth, absent fingerprint yielding false. -/
def specIsApplied (env : GitEnv) (h branch : String) (depth : Nat) : Bool :=
  match getPatchId env h with
  | none => false
  | some p =>
      p != "" && (specRecentFingerprints env branch depth).contains p

/-- Spec §4.3 `filterUnapplied(commits, branch, depth)`: the
order-preserving subsequence with `isApplied` false. -/
def specFilterUnapplied (env : GitEnv) (commitHashes : List String)
    (branch : String) (depth : Nat) : List String :=
  commitHashes.filter fun h => !(specIsApplied env h branch depth)

/-! ## Conflict-recovery state machine (`performCherryPickFlow`)

`perform-cherry-pick-flow.ts:16-130` drives one commit at a time through a
`while (!isCommitHandled)` loop.  The external nondeterminism of each loop
iteration is: the outcome of `git cherry-pick <hash>` (combined with the
HEAD comparison around it), the user's `promptForNextAction` answer, and
the outcome of `git cherry-pick --continue`.  We feed the loop a finite
list of such iteration environments; an exhausted list models a run that
never terminates (e.g. the user retrying forever) as the distinguished
`fuelOut` outcome. -/

/-- JS `String.prototype.includes`: substring containment. -/
def includesSub (s sub : String) : Bool :=
  let sl := s.toList
  let subl := sub.toList
  (List.range (sl.length + 1)).any fun i => (sl.drop i).take subl.length == subl

/-- Outcome of one `gitCherryPick([hash])` attempt.  `success headChanged`
bundles the before/after HEAD comparison; `failure msg` is the thrown
error's message. -/
inductive PickResult where
  | success (headChanged : Bool)
  | failure (message : String)
  deriving DecidableEq, Repr

/-- Outcome of one `gitCherryPickContinue` attempt. -/
inductive ContinueResult where
  | ok
  | fail (message : String)
  deriving DecidableEq, Repr

/-- A `promptForNextAction` answer (`RecoveryOutcome` in the spec). -/
inductive Decision where
  | cont
  | retry
  | skip
  | abort
  deriving DecidableEq, Repr

/-- External inputs consumed by one iteration of the resolution loop. -/
structure IterEnv where
  pick : PickResult
  decision : Decision
  contResult : ContinueResult
  deriving Repr

/-- Terminal status of the per-commit resolution loop. -/
inductive LoopOut where
  | handled (hasChanges : Bool)
  | abortedErr (message : String)
  | fuelOut
  deriving DecidableEq, Repr

/-- The `while (!isCommitHandled)` loop of `performCherryPickFlow` for a
single commit (perform-cherry-pick-flow.ts:28-126).  `hasChanges` is the
accumulator variable of the enclosing flow.  Returns the terminal status,
the number of `promptForNextAction` prompts shown, and the git operations
invoked.

* attempt succeeds → handled; `hasChanges` becomes true iff HEAD changed;
* attempt fails with a message containing "the previous cherry-pick is now
  empty" → auto `gitCherryPickSkip`, handled, no prompt;
* otherwise prompt (`continue` offered only when the lowered message
  contains "conflict" or "could not apply" — that classification is
  computed here exactly as in the source, though which options the prompt
  displays is the prompt port's concern):
  - `cont`: run `gitCherryPickContinue`; success → handled with
    `hasChanges := true`; failure containing "empty" → auto-skip, handled;
    failure containing "unmerged files" → hint and loop again; any other
    failure → `gitCherryPickAbort` then rethrow (`abortedErr`);
  - `skip`: `gitCherryPickAbort`, handled;
  - `abort`: `gitCherryPickAbort`, throw "Operation aborted by user.";
  - `retry` (and the default case): loop again. -/
def resolveLoop (hash : String) (iters : List IterEnv) (hasChanges : Bool) :
    LoopOut × Nat × List GitOp :=
  match iters with
  | [] => (.fuelOut, 0, [])
  | it :: rest =>
    match it.pick with
    | .success headChanged =>
        (.handled (hasChanges || headChanged), 0, [.cherryPick hash])
    | .failure message =>
        let errorMessage := jsToLower message
        if includesSub errorMessage "the previous cherry-pick is now empty" then
          (.handled hasChanges, 0, [.cherryPick hash, .cherryPickSkip])
        else
          match it.decision with
          | .cont =>
            match it.contResult with
            | .ok =>
                (.handled true, 1, [.cherryPick hash, .cherryPickContinue])
            | .fail contMsg =>
                let continueMessage := jsToLower contMsg
                if includesSub continueMessage "empty" then
                  (.handled hasChanges, 1,
                    [.cherryPick hash, .cherryPickContinue, .cherryPickSkip])
                else if includesSub continueMessage "unmerged files" then
                  let (out, prompts, trace) := resolveLoop hash rest hasChanges
                  (out, prompts + 1,
                    [.cherryPick hash, .cherryPickContinue] ++ trace)
                else
                  (.abortedErr contMsg, 1,
                    [.cherryPick hash, .cherryPickContinue, .cherryPickAbort])
          | .skip =>
              (.handled hasChanges, 1, [.cherryPick hash, .cherryPickAbort])
          | .abort =>
              (.abortedErr "Operation aborted by user.", 1,
                [.cherryPick hash, .cherryPickAbort])
          | .retry =>
              let (out, prompts, trace) := resolveLoop hash rest hasChanges
              (out, prompts + 1, [.cherryPick hash] ++ trace)

/-- Overall outcome of `performCherryPickFlow`. -/
inductive FlowOut where
  | ok (hasChanges : Bool)
  | err (message : String)
  | fuelOut
  deriving DecidableEq, Repr

/-- `performCherryPickFlow` (perform-cherry-pick-flow.ts:16-130): iterate
the hashes in order, driving each through `resolveLoop`; a thrown error
(user abort or fatal continue-failure) stops the remaining hashes.
`iters` supplies each hash's iteration environments. -/
def performCherryPickFlow (iters : String → List IterEnv)
    (hashes : List String) (hasChanges : Bool) :
    FlowOut × Nat × List GitOp :=
  match hashes with
  | [] => (.ok hasChanges, 0, [])
  | h :: rest =>
    match resolveLoop h (iters h) hasChanges with
    | (.handled hc, prompts, trace) =>
        let (out, prompts', trace') := performCherryPickFlow iters rest hc
        (out, prompts + prompts', trace ++ trace')
    | (.abortedErr msg, prompts, trace) => (.err msg, prompts, trace)
    | (.fuelOut, prompts, trace) => (.fuelOut, prompts, trace)

/-! ## Branch enumeration and resolution -/

/-- The result of `git.branch(['-a'])` (simple-git's `BranchSummary`), as
consumed by `isBranchNameInUse`: the keys of its `branches` map and the
raw `all` ref list (remote refs carrying the `remotes/` prefix). -/
structure BranchSummary where
  branchKeys : List String
  all : List String

/-- The remote-ref comparison inside `isBranchNameInUse`
(git.ts:303-317): a ref counts iff it starts with `remotes/`, splits on
`/` into at least three parts, and the part after the remote name equals
the candidate branch name. -/
def remoteRefMatches (branchName remoteRef : String) : Bool :=
  if !(jsStartsWith remoteRef "remotes/") then false
  else
    let parts := jsSplit '/' remoteRef
    if parts.length < 3 then false
    else String.intercalate "/" (parts.drop 2) == branchName

/-- `isBranchNameInUse` (git.ts:285-331).  `summary = none` models the
`git.branch(['-a'])` call throwing, which the function's catch block turns
into `return true`. -/
def isBranchNameInUse (summary : Option BranchSummary) (branchName : String) :
    Bool :=
  match summary with
  | none => true
  | some branchSummary =>
    if branchSummary.branchKeys.contains branchName then true
    else if branchSummary.all.any (remoteRefMatches branchName) then true
    else false

/-- `getAllBranchNames` (git.ts, current version): trim each ref, drop
pointer aliases containing `->`, strip the `remotes/<name>/` prefix of
remote refs (kept only when the split has at least three parts), and
deduplicate while keeping insertion order (a JS `Set`). -/
def getAllBranchNames (refs : List String) : List String :=
  refs.foldl
    (fun acc ref =>
      let trimmedRef := jsTrim ref
      if includesSub trimmedRef "->" then acc
      else if jsStartsWith trimmedRef "remotes/" then
        let parts := jsSplit '/' trimmedRef
        if 3 ≤ parts.length then
          let name := String.intercalate "/" (parts.drop 2)
          if name ∈ acc then acc else acc ++ [name]
        else acc
      else if trimmedRef ∈ acc then acc else acc ++ [trimmedRef])
    []

/-- A `BranchSpec` (`TargetBranches` in src/types): a literal name, a
literal list, or a pattern object.  The TS object form holds
`branches : string | string[]`; the `Array.isArray` normalisation to a
list is folded into the constructor argument. -/
inductive TargetBranches where
  | str (name : String)
  | list (names : List String)
  | pattern (branches : List String) (isRegex : Bool)
  deriving DecidableEq, Repr

/-- Environment for `resolveTargetBranches`: the raw refs seen by
`getAllBranchNames`, and the JS regex engine — `compile p = none` models
`new RegExp(p)` throwing a syntax error, `some test` the compiled
`regex.test`. -/
structure ResolveEnv where
  refs : List String
  compile : String → Option (String → Bool)

/-- The per-pattern loop of `resolveTargetBranches` (finders.ts:203-217):
each pattern is compiled (an invalid one aborts with an error naming it)
and every matching branch is added to the `matchedBranches` set. -/
def regexMatchLoop (env : ResolveEnv) (allBranches : List String) :
    List String → List String → Except String (List String)
  | [], matched => .ok matched
  | pat :: rest, matched =>
    match env.compile pat with
    | none =>
        .error ("Invalid regular expression provided: \"" ++ pat ++ "\".")
    | some test =>
        regexMatchLoop env allBranches rest
          (allBranches.foldl
            (fun acc branch =>
              if test branch then
                if branch ∈ acc then acc else acc ++ [branch]
              else acc)
            matched)

/-- `resolveTargetBranches` (finders.ts:177-222):
* literal string → singleton list;
* literal array → returned as given;
* pattern object with `isRegex` false → the patterns as given;
* pattern object with `isRegex` true → regex matching over all known
  branch names, result in set-insertion order (`Array.from(matchedBranches)`). -/
def resolveTargetBranches (env : ResolveEnv)
    (targetBranches : TargetBranches) : Except String (List String) :=
  match targetBranches with
  | .str name => .ok [name]
  | .list names => .ok names
  | .pattern branches isRegex =>
    let patterns := branches
    if !isRegex then .ok patterns
    else
      let allBranches := getAllBranchNames env.refs
      regexMatchLoop env allBranches patterns []

/-! ## Safety gate and lifecycle -/

/-- The workspace probe consumed by `isRepositoryInSafeState`: working
tree cleanliness and the set of marker files present under `.git`. -/
structure SafetyState where
  clean : Bool
  gitDirFiles : List String

/-- The in-progress-operation marker files checked by the gate. -/
def stateFiles : List String :=
  ["CHERRY_PICK_HEAD", "MERGE_HEAD", "REBASE_HEAD", "REVERT_HEAD"]

/-- `isRepositoryInSafeState` (lifecycle.ts:8-36, git.ts:78-106): false
when the tree is dirty or any marker file exists; true otherwise.
Read-only probe. -/
def isRepositoryInSafeState (st : SafetyState) : Bool :=
  if !st.clean then false
  else if stateFiles.any (fun file => st.gitDirFiles.contains file) then false
  else true

/-- `prepareBranch` (lifecycle, part of the shared module): checkout, then
fetch + fast-forward pull when the branch tracks a remote.  We model its
git calls as succeeding; a failing call would raise into the caller's
per-item catch. -/
def prepareBranchOps (tracked : String → Bool) (branch remote : String) :
    List GitOp :=
  [.checkout branch] ++
    (if tracked branch then [.fetch remote branch, .pull remote branch]
     else [])

/-- `safeCheckoutOriginalBranch` (lifecycle.ts:43-59): always attempts the
checkout; a failure is caught and logged as a warning, never rethrown.
Returns the attempted operation and whether the warning fired. -/
def safeCheckoutOriginalBranch (checkoutOk : Bool) (originalBranch : String) :
    List GitOp × Bool :=
  ([.checkout originalBranch], !checkoutOk)

/-- A step's per-item report buckets (`ItemResult` aggregation). -/
structure ReportLists where
  successfulItems : List String
  warnItems : List String
  failedItems : List String
  deriving DecidableEq, Repr

/-- Result of `reportAndFinalizeStep`: the step-level verdict (success
banner iff no item failed), whether the restoration warning fired, and the
operations run while finalizing. -/
structure FinalizeOut where
  stepSucceeded : Bool
  restorationWarned : Bool
  trace : List GitOp
  deriving DecidableEq, Repr

/-- `reportAndFinalizeStep` (shared summary module): print the three item
summaries, call `safeCheckoutOriginalBranch`, then log the final
error/success line determined solely by whether `failedItems` is
nonempty.  `restoreOk` is the outcome of the restoration checkout. -/
def reportAndFinalizeStep (restoreOk : Bool) (r : ReportLists)
    (originalBranch : String) : FinalizeOut :=
  let (restoreTrace, warned) := safeCheckoutOriginalBranch restoreOk originalBranch
  { stepSucceeded := r.failedItems.isEmpty
    restorationWarned := warned
    trace := restoreTrace }

/-! ## Push workflow (`handlePush`, push/index.ts:9-84) -/

/-- Per-branch external outcomes for the push workflow: whether the
checkout succeeds, whether the branch tracks an upstream, whether the
fetch (after its interactive retries) succeeds, the ahead/behind counts
reported by `git status`, and whether the push succeeds. -/
structure PushBranchEnv where
  checkoutOk : Bool
  tracked : Bool
  fetchOk : Bool
  ahead : Nat
  behind : Nat
  pushOk : Bool
  deriving DecidableEq, Repr

/-- Outcome of processing one branch in the push loop. -/
inductive PushItemOut where
  | success
  | upToDate
  | failed (reason : String)
  deriving DecidableEq, Repr

/-- The reason string thrown for a branch behind its upstream
(push/index.ts:52-56). -/
def behindReason (behind : Nat) : String :=
  "Branch is " ++ toString behind ++
    " commit(s) behind remote. Please pull/rebase first."

/-- The body of the `for` loop of `handlePush` for one branch
(push/index.ts:34-74): checkout; untracked branches are pushed directly
(with upstream set); tracked ones are fetched and their upstream status
compared — `behind > 0` throws the pull-first reason before any push,
`ahead == 0` records an up-to-date no-op, otherwise push.  Any raise is
caught by the loop and becomes a failed item. -/
def pushBranchStep (e : PushBranchEnv) (remote branch : String) :
    PushItemOut × List GitOp :=
  if !e.checkoutOk then (.failed "checkout failed", [.checkout branch])
  else if !e.tracked then
    if e.pushOk then (.success, [.checkout branch, .push remote branch])
    else (.failed "push failed", [.checkout branch, .push remote branch])
  else if !e.fetchOk then
    (.failed "fetch failed", [.checkout branch, .fetch remote branch])
  else if 0 < e.behind then
    (.failed (behindReason e.behind),
      [.checkout branch, .fetch remote branch, .statusProbe])
  else if e.ahead = 0 then
    (.upToDate, [.checkout branch, .fetch remote branch, .statusProbe])
  else if e.pushOk then
    (.success,
      [.checkout branch, .fetch remote branch, .statusProbe,
        .push remote branch])
  else
    (.failed "push failed",
      [.checkout branch, .fetch remote branch, .statusProbe,
        .push remote branch])

/-- The item-accumulation of `handlePush`: a plain success goes to
`successfulItems`; an up-to-date branch goes to `successfulItems` (tagged
up-to-date) and to `warnItems`; a failure goes to `failedItems` with its
reason. -/
def pushLoop (env : String → PushBranchEnv) (remote : String) :
    List String → ReportLists × List GitOp
  | [] => (⟨[], [], []⟩, [])
  | branch :: rest =>
    let (out, trace) := pushBranchStep (env branch) remote branch
    let (r, trace') := pushLoop env remote rest
    match out with
    | .success =>
        (⟨branch :: r.successfulItems, r.warnItems, r.failedItems⟩,
          trace ++ trace')
    | .upToDate =>
        (⟨(branch ++ " (up-to-date)") :: r.successfulItems,
          (branch ++ " (up-to-date)") :: r.warnItems, r.failedItems⟩,
          trace ++ trace')
    | .failed reason =>
        (⟨r.successfulItems, r.warnItems,
          (branch ++ ": " ++ reason) :: r.failedItems⟩, trace ++ trace')

/-- `handlePush` (push/index.ts:9-84): process each selected branch,
isolating failures per item, then report and finalize (restoring the
original branch).  Branch selection and the `getCurrentBranch` lookup are
inputs.  Note: this workflow never consults the safety gate. -/
def handlePush (env : String → PushBranchEnv) (restoreOk : Bool)
    (selectedBranches : List String) (originalBranch remote : String) :
    ReportLists × FinalizeOut × List GitOp :=
  let (r, trace) := pushLoop env remote selectedBranches
  let fin := reportAndFinalizeStep restoreOk r originalBranch
  (r, fin, trace ++ fin.trace)

/-! ## Replicate-to-branches workflow (`handleCherryPick`) -/

/-- The overall outcome of a workflow handler run:
* `earlyExit` — the handler returned before building a step report (empty
  selection, or the decline-to-reuse `return` in `handleCreateWithPick`);
* `finished` — the normal path through `reportAndFinalizeStep`;
* `ranOut` — the scripted iteration environments were exhausted, i.e. the
  underlying resolution loop never terminated. -/
inductive StepRun where
  | earlyExit (trace : List GitOp)
  | finished (report : ReportLists) (finalize : FinalizeOut)
      (trace : List GitOp)
  | ranOut (trace : List GitOp)
  deriving DecidableEq, Repr

/-- Intermediate outcome of a handler's per-item loop. -/
inductive ItemLoopOut where
  | completed (successfulItems failedItems : List String)
      (trace : List GitOp)
  | earlyReturn (trace : List GitOp)
  | ranOut (trace : List GitOp)
  deriving DecidableEq, Repr

/-- The per-branch loop of the current `handleCherryPick`
(the `for (const [i, branch] of selectedBranches.entries())` loop):
prepare the branch, filter the commits (the TS call passes
`patchIdCheckDepth` as a fourth argument, which the three-parameter
`filterCommitsToApply` drops), run the cherry-pick flow, optionally push;
a raised error is caught, recorded as a failed item, and followed by a
best-effort `git reset --hard`. -/
def combineItem (label : String) (failed : Bool) (tr : List GitOp) :
    ItemLoopOut → ItemLoopOut
  | .completed s f t =>
      if failed then .completed s (label :: f) (tr ++ t)
      else .completed (label :: s) f (tr ++ t)
  | .earlyReturn t => .earlyReturn (tr ++ t)
  | .ranOut t => .ranOut (tr ++ t)

def cherryPickLoop (genv : GitEnv) (iters : String → List IterEnv)
    (tracked : String → Bool) (initialCommitHashes : List String)
    (remote : String) (shouldPush : Bool) :
    List String → ItemLoopOut
  | [] => .completed [] [] []
  | branch :: rest =>
    let prep := prepareBranchOps tracked branch remote
    let hashesToPick := filterCommitsToApply genv initialCommitHashes branch
    if hashesToPick.isEmpty then
      combineItem (branch ++ " (no new changes)") false prep
        (cherryPickLoop genv iters tracked initialCommitHashes remote
          shouldPush rest)
    else
      match performCherryPickFlow iters hashesToPick false with
      | (.ok hasChanges, _, ftrace) =>
        combineItem (branch ++ " (changes applied)") false
          (prep ++ ftrace ++
            (if shouldPush && hasChanges then [.push remote branch] else []))
          (cherryPickLoop genv iters tracked initialCommitHashes remote
            shouldPush rest)
      | (.err msg, _, ftrace) =>
        combineItem (branch ++ ": " ++ msg) true (prep ++ ftrace ++ [.reset])
          (cherryPickLoop genv iters tracked initialCommitHashes remote
            shouldPush rest)
      | (.fuelOut, _, ftrace) => .ranOut (prep ++ ftrace)

/-- The current `handleCherryPick` (replicate-to-branches): after branch
selection, the handler runs `await isRepositoryInSafeState(cwd)` — the
probe executes (the leading `statusProbe` trace entry) but its boolean is
discarded, so processing continues regardless — then loops over the
branches and finalizes with `reportAndFinalizeStep`. -/
def handleCherryPick (st : SafetyState) (genv : GitEnv)
    (iters : String → List IterEnv) (tracked : String → Bool)
    (restoreOk : Bool) (selectedBranches commitHashes : List String)
    (originalBranch remote : String) (shouldPush : Bool) : StepRun :=
  if selectedBranches.isEmpty then .earlyExit []
  else
    let _safe := isRepositoryInSafeState st
    match cherryPickLoop genv iters tracked commitHashes remote shouldPush
        selectedBranches with
    | .completed s f trace =>
        let r : ReportLists := ⟨s, [], f⟩
        let fin := reportAndFinalizeStep restoreOk r originalBranch
        .finished r fin (.statusProbe :: trace ++ fin.trace)
    | .earlyReturn trace => .earlyExit (.statusProbe :: trace)
    | .ranOut trace => .ranOut (.statusProbe :: trace)

/-! ## Create-then-replicate workflow (`handleCreateWithPick`) -/

/-- A `ReplicationTask` (`CreationTask` in the source); `commitHashes` is
already normalised by `toArray`. -/
structure CreationTask where
  baseBranch : String
  newBranch : String
  commitHashes : List String
  deriving DecidableEq, Repr

/-- The task identifier string used in the handler's report items. -/
def taskIdentifier (task : CreationTask) : String :=
  "Task (" ++ task.baseBranch ++ " -> " ++ task.newBranch ++ ")"

/-- The branch-preparation phase of one create-with-pick task
(creat-with-pick/index.ts:68-89): prepare the base branch; when
`isBranchNameInUse` reports the new branch taken, the user's answer
decides between preparing the existing branch (`some`) and the
decline path (`none`, which the caller turns into the early return);
otherwise create the new branch from the base. -/
def cwpReady (tracked : String → Bool)
    (taskSummary : CreationTask → Option BranchSummary)
    (reuse : CreationTask → Bool) (remote : String) (task : CreationTask) :
    Option (List GitOp) :=
  if isBranchNameInUse (taskSummary task) task.newBranch then
    if reuse task then
      some (prepareBranchOps tracked task.baseBranch remote
        ++ prepareBranchOps tracked task.newBranch remote)
    else none
  else
    some (prepareBranchOps tracked task.baseBranch remote
      ++ [.createBranch task.newBranch task.baseBranch])

/-- The per-task loop of `handleCreateWithPick`
(creat-with-pick/index.ts:59-120).  For each task: prepare the base
branch; if `isBranchNameInUse` reports the new branch taken, ask the user
— reuse prepares the existing branch, while declining logs a warning,
checks the original branch back out, and `return`s from the whole handler
(the `earlyReturn` outcome) — otherwise create the new branch from the
base; then filter the commits (the fourth `patchIdCheckDepth` argument of
the TS call is dropped by the three-parameter `filterCommitsToApply`),
run the flow, optionally push.  A raised error is caught as a failed item
followed by a best-effort reset.  `taskSummary` is the `git branch -a`
result seen by each task's `isBranchNameInUse` call (`none` = the
enumeration itself threw); `reuse` is the user's confirm answer. -/
def cwpTaskLoop (genv : GitEnv) (iters : String → List IterEnv)
    (tracked : String → Bool)
    (taskSummary : CreationTask → Option BranchSummary)
    (reuse : CreationTask → Bool) (remote originalBranch : String)
    (shouldPush : Bool) : List CreationTask → ItemLoopOut
  | [] => .completed [] [] []
  | task :: rest =>
    match cwpReady tracked taskSummary reuse remote task with
    | none =>
        .earlyReturn (prepareBranchOps tracked task.baseBranch remote
          ++ [.checkout originalBranch])
    | some prep =>
      let hashesToPick := filterCommitsToApply genv task.commitHashes
        task.newBranch
      if hashesToPick.isEmpty then
        combineItem (taskIdentifier task ++ " (no new changes)") false prep
          (cwpTaskLoop genv iters tracked taskSummary reuse remote
            originalBranch shouldPush rest)
      else
        match performCherryPickFlow iters hashesToPick false with
        | (.ok hasChanges, _, ftrace) =>
          combineItem (taskIdentifier task ++ " (changes applied)") false
            (prep ++ ftrace ++
              (if shouldPush && hasChanges then [.push remote task.newBranch]
               else []))
            (cwpTaskLoop genv iters tracked taskSummary reuse remote
              originalBranch shouldPush rest)
        | (.err msg, _, ftrace) =>
          combineItem (taskIdentifier task ++ ": " ++ msg) true
            (prep ++ ftrace ++ [.reset])
            (cwpTaskLoop genv iters tracked taskSummary reuse remote
              originalBranch shouldPush rest)
        | (.fuelOut, _, ftrace) => .ranOut (prep ++ ftrace)

/-- `handleCreateWithPick` (creat-with-pick/index.ts:19-130): empty task
selection exits immediately; otherwise the safety gate runs with its
boolean discarded (line 54: `await isRepositoryInSafeState(cwd)`), the
task loop executes, and — unless the decline-to-reuse path returned early
— the handler finalizes with `reportAndFinalizeStep`. -/
def handleCreateWithPick (st : SafetyState) (genv : GitEnv)
    (iters : String → List IterEnv) (tracked : String → Bool)
    (taskSummary : CreationTask → Option BranchSummary)
    (reuse : CreationTask → Bool) (restoreOk : Bool)
    (selectedTasks : List CreationTask) (originalBranch remote : String)
    (shouldPush : Bool) : StepRun :=
  if selectedTasks.isEmpty then .earlyExit []
  else
    let _safe := isRepositoryInSafeState st
    match cwpTaskLoop genv iters tracked taskSummary reuse remote
        originalBranch shouldPush selectedTasks with
    | .completed s f trace =>
        let r : ReportLists := ⟨s, [], f⟩
        let fin := reportAndFinalizeStep restoreOk r originalBranch
        .finished r fin (.statusProbe :: trace ++ fin.trace)
    | .earlyReturn trace => .earlyExit (.statusProbe :: trace)
    | .ranOut trace => .ranOut (.statusProbe :: trace)

/-- The operations a run performed, on any outcome. -/
def StepRun.trace : StepRun → List GitOp
  | .earlyExit t => t
  | .finished _ _ t => t
  | .ranOut t => t

/-- Whether a run exhausted its scripted iteration environments (models a
resolution loop that never terminates). -/
def StepRun.isRanOut : StepRun → Bool
  | .ranOut _ => true
  | _ => false

/-! ## Concrete environments used in the witnesses and counterexamples -/

/-- A clean workspace with no in-progress markers. -/
def stClean : SafetyState := ⟨true, []⟩

/-- A workspace with an in-progress cherry-pick marker (spec §8's safety
gate example). -/
def stBlocked : SafetyState := ⟨true, ["CHERRY_PICK_HEAD"]⟩

/-- A git environment in which no patch-id is obtainable, so every commit
counts as not yet applied. -/
def genvBare : GitEnv := ⟨fun _ => [], fun _ => true, fun _ => none⟩

/-- A scripted flow in which every first cherry-pick attempt succeeds and
creates a new commit. -/
def itersPickOk : String → List IterEnv :=
  fun _ => [⟨.success true, .retry, .ok⟩]

/-- No branch tracks a remote. -/
def noUpstream : String → Bool := fun _ => false

/-- A branch `release` whose 35-deep history carries the content
equivalent of commit `src` only at position 35 — outside a 30-commit scan
window, inside a 500-commit one. -/
def envDeep : GitEnv :=
  { hist := fun b =>
      if b = "release" then (List.range 35).map (fun i => "r" ++ toString i)
      else []
    logOk := fun _ => true
    patchOut := fun c =>
      if c = "src" then some "P"
      else if c = "r34" then some "P"
      else none }

/-- First creation task: its `newBranch` already exists locally. -/
def taskA : CreationTask := ⟨"develop", "feat-a", ["c1"]⟩

/-- Second creation task, untouched branch names. -/
def taskB : CreationTask := ⟨"base-b", "feat-b", ["c2"]⟩

/-- Branch enumeration during the existence check: `feat-a` is taken
locally, nothing else exists. -/
def summaryAB : CreationTask → Option BranchSummary :=
  fun _ => some ⟨["feat-a"], []⟩

/-- The user declines to reuse any existing branch. -/
def declineAll : CreationTask → Bool := fun _ => false

/-- Resolution environment for the spec §8 regex example: known branches
`release-a`, `release-b`, `hotfix-a`; the pattern `^release-` compiles to
a prefix test; anything else is an invalid regex. -/
def renvRelease : ResolveEnv :=
  { refs := ["release-a", "release-b", "hotfix-a"]
    compile := fun p =>
      if p = "^release-" then some (fun b => jsStartsWith b "release-")
      else none }

/-- A one-commit repository for the idempotence witness: branch `main`
has a single commit `m1` with patch-id `Q`; the source commit `c1` has
patch-id `P`. -/
def envRep : GitEnv :=
  { hist := fun b => if b = "main" then ["m1"] else []
    logOk := fun _ => true
    patchOut := fun c =>
      if c = "m1" then some "Q"
      else if c = "c1" then some "P"
      else none }

/-- Push environment: an untracked branch whose push fails (after the
declined interactive retry the error reaches the per-item handler). -/
def pushEnvUntrackedFail : String → PushBranchEnv :=
  fun _ => ⟨true, false, true, 0, 0, false⟩

/-- Push environment: a tracked branch two commits behind its upstream
(spec §8's push guard example). -/
def pushEnvBehindTwo : String → PushBranchEnv :=
  fun _ => ⟨true, true, true, 0, 2, true⟩

/-- A scripted flow whose first attempt succeeds without moving HEAD (the
change was already effectively present). -/
def itersNoOp : String → List IterEnv :=
  fun _ => [⟨.success false, .retry, .ok⟩]

/-- A scripted flow whose first attempt fails with git's empty-pick
message. -/
def itersEmptyPick : String → List IterEnv :=
  fun _ =>
    [⟨.failure
        "The previous cherry-pick is now empty, possibly due to conflict resolution.",
      .retry, .ok⟩]

/-- A scripted flow whose first attempt fails with a conflict, the user
chooses `continue`, and the continue attempt itself reports an empty
result. -/
def itersContEmpty : String → List IterEnv :=
  fun _ =>
    [⟨.failure "error: could not apply 1234abc!", .cont,
      .fail "The previous cherry-pick is now empty"⟩]

/-! # Supporting lemmas -/

/-- Membership in one step of the patch-id accumulation of
`getRecentPatchIds`. -/
theorem mem_patchStep (env : GitEnv) (c p : String) (acc : List String) :
    (p ∈ (match getPatchId env c with
          | none => acc
          | some patchId =>
              if patchId = "" then acc
              else if patchId ∈ acc then acc else acc ++ [patchId]))
    ↔ p ∈ acc ∨ (getPatchId env c = some p ∧ p ≠ "") := by
  cases hc : getPatchId env c with
  | none => simp
  | some q =>
    by_cases hq : q = ""
    · subst hq
      simp only [if_pos rfl]
      constructor
      · exact fun h => Or.inl h
      · rintro (h | ⟨he, hne⟩)
        · exact h
        · exact absurd (Option.some_injective _ he).symm hne
    · by_cases hmem : q ∈ acc
      · simp only [if_neg hq, if_pos hmem]
        constructor
        · exact fun h => Or.inl h
        · rintro (h | ⟨he, _⟩)
          · exact h
          · rwa [← Option.some_injective _ he]
      · simp only [if_neg hq, if_neg hmem, List.mem_append,
          List.mem_singleton]
        constructor
        · rintro (h | h)
          · exact Or.inl h
          · exact Or.inr ⟨by rw [h], by rw [h]; exact hq⟩
        · rintro (h | ⟨he, _⟩)
          · exact Or.inl h
          · exact Or.inr (Option.some_injective _ he).symm

/-- Membership in the patch-id fold over a commit list. -/
theorem mem_patchFold (env : GitEnv) (l : List String) (p : String) :
    ∀ acc : List String,
      (p ∈ l.foldl
        (fun acc c =>
          match getPatchId env c with
          | none => acc
          | some patchId =>
              if patchId = "" then acc
              else if patchId ∈ acc then acc else acc ++ [patchId])
        acc
      ↔ p ∈ acc ∨ ∃ c ∈ l, getPatchId env c = some p ∧ p ≠ "") := by
  induction l with
  | nil => intro acc; simp
  | cons c l ih =>
    intro acc
    rw [List.foldl_cons, ih, mem_patchStep]
    constructor
    · rintro ((h | h) | ⟨c', hc', h⟩)
      · exact Or.inl h
      · exact Or.inr ⟨c, List.mem_cons_self c l, h⟩
      · exact Or.inr ⟨c', List.mem_cons_of_mem c hc', h⟩
    · rintro (h | ⟨c', hc', h⟩)
      · exact Or.inl (Or.inl h)
      · rcases List.mem_cons.1 hc' with hc' | hc'
        · exact Or.inl (Or.inr (hc' ▸ h))
        · exact Or.inr ⟨c', hc', h⟩

/-- A patch-id is collected by `getRecentPatchIds` iff the log succeeds
and some commit within the scanned window carries it (non-empty). -/
theorem mem_getRecentPatchIds (env : GitEnv) (branch : String) (count : Nat)
    (p : String) :
    p ∈ getRecentPatchIds env branch count
    ↔ env.logOk branch = true ∧
      ∃ c ∈ (env.hist branch).take count,
        getPatchId env c = some p ∧ p ≠ "" := by
  unfold getRecentPatchIds gitLogHashes
  by_cases hl : env.logOk branch
  · rw [if_pos hl]
    simp only [hl, true_and]
    rw [mem_patchFold]
    simp
  · rw [if_neg hl]
    simp [hl]

/-- `findAppliedHashesByPatchId` filters by `isAppliedFinders`. -/
theorem findApplied_eq_filter (env : GitEnv) (hashes : List String)
    (branch : String) :
    findAppliedHashesByPatchId env hashes branch
      = hashes.filter (fun h => isAppliedFinders env h branch) := rfl

/-- For an element of the base list, `contains` on the filtered list
computes the predicate. -/
theorem contains_filter_of_mem (l : List String) (p : String → Bool)
    (a : String) (ha : a ∈ l) : (l.filter p).contains a = p a := by
  by_cases hp : p a = true
  · simp [List.mem_filter, ha, hp]
  · simp only [Bool.not_eq_true] at hp
    simp [List.mem_filter, hp]

/-- The two-pass structure of `filterCommitsToApply` (collect the applied
set, then filter against it) equals the direct one-pass filter by the
negated applied predicate. -/
theorem filterCommitsToApply_eq (env : GitEnv) (hashes : List String)
    (branch : String) :
    filterCommitsToApply env hashes branch
      = hashes.filter (fun h => !(isAppliedFinders env h branch)) := by
  unfold filterCommitsToApply
  rw [findApplied_eq_filter]
  refine List.filter_congr ?_
  intro a ha
  rw [contains_filter_of_mem hashes (fun h => isAppliedFinders env h branch) a ha]

/-- Prefixing with the replication tag is injective. -/
theorem pickTag_inj {a b : String} (h : "picked/" ++ a = "picked/" ++ b) :
    a = b := by
  have hd := congrArg String.data h
  rw [String.data_append, String.data_append] at hd
  exact String.ext (List.append_cancel_left hd)

/-- `afterRun` leaves the patch-id output of any commit that is not one of
the freshly created `picked/` commits unchanged. -/
theorem afterRun_patchOut_eq (env : GitEnv) (branch : String)
    (hashes : List String) (c : String)
    (hc : ∀ h ∈ filterCommitsToApply env hashes branch, c ≠ "picked/" ++ h) :
    (afterRun env branch hashes).patchOut c = env.patchOut c := by
  have hfind : (filterCommitsToApply env hashes branch).find?
      (fun h => c == "picked/" ++ h) = none :=
    List.find?_eq_none.2 (fun a ha => by simp [hc a ha])
  simp only [afterRun]
  rw [hfind]

/-- `afterRun` gives each freshly created commit the patch-id output of
its source commit. -/
theorem afterRun_patchOut_picked (env : GitEnv) (branch : String)
    (hashes : List String) (h : String)
    (hh : h ∈ filterCommitsToApply env hashes branch) :
    (afterRun env branch hashes).patchOut ("picked/" ++ h)
      = env.patchOut h := by
  have hsome := List.find?_isSome.2
    (⟨h, hh, by simp⟩ :
      ∃ a ∈ filterCommitsToApply env hashes branch,
        (("picked/" ++ h) == ("picked/" ++ a)) = true)
  obtain ⟨h', hfind⟩ := Option.isSome_iff_exists.1 hsome
  have hpred := List.find?_some hfind
  simp only [beq_iff_eq] at hpred
  have : h' = h := (pickTag_inj hpred).symm
  subst this
  simp only [afterRun]
  rw [hfind]

/-! # Claims -/

/-- C6: for every commit list, branch and environment,
`filterCommitsToApply` returns the order-preserving subsequence of the
input consisting of exactly the commits whose `isApplied` (fingerprint
membership in the branch's recent-fingerprint set) is false; a commit
with an unobtainable fingerprint is never treated as applied — by either
implementation (`findAppliedHashesByPatchId`-based or
`isChangeApplied`-based) — and is therefore retained for replication. -/
theorem filter_unapplied_correct (env : GitEnv) (hashes : List String)
    (branch : String) :
    filterCommitsToApply env hashes branch
      = hashes.filter (fun h => !(isAppliedFinders env h branch))
    ∧ (filterCommitsToApply env hashes branch).Sublist hashes
    ∧ (∀ h : String, getPatchId env h = none →
        isAppliedFinders env h branch = false
          ∧ isChangeApplied env h branch = false)
    ∧ filterCommitsToApplyV2 env hashes branch
      = hashes.filter (fun h => !(isChangeApplied env h branch)) := by
  refine ⟨filterCommitsToApply_eq env hashes branch, ?_, ?_, rfl⟩
  · rw [filterCommitsToApply_eq]
    exact List.filter_sublist hashes
  · intro h hh
    constructor
    · simp [isAppliedFinders, hh]
    · simp [isChangeApplied, hh]

/-- C6 witness: in the concrete repository `envRep`, the commit `zz` has
no obtainable patch-id, and the theorem instantiated there yields that it
is not treated as applied. -/
theorem filter_unapplied_correct_witness :
    isAppliedFinders envRep "zz" "main" = false
      ∧ isChangeApplied envRep "zz" "main" = false :=
  (filter_unapplied_correct envRep ["zz"] "main").2.2.1 "zz" (by decide)

/-- C7: idempotence of replication.  After a completed replication run of
`hashes` onto `branch` (modelled by `afterRun`: every commit selected by
`filterCommitsToApply` is re-created on the branch with its patch-id
preserved), a second `filterCommitsToApply` with the same commit list and
branch returns the empty list — provided the branch log works, every
commit's fingerprint is obtainable, the combined history fits the
500-commit scan window, and the fresh `picked/` identifiers collide with
nothing pre-existing. -/
theorem replication_idempotent (env : GitEnv) (branch : String)
    (hashes : List String)
    (hlog : env.logOk branch = true)
    (hfp : ∀ h ∈ hashes, ∃ p, getPatchId env h = some p ∧ p ≠ "")
    (hlen : (env.hist branch).length + hashes.length ≤ 500)
    (hfresh : ∀ c, (c ∈ env.hist branch ∨ c ∈ hashes) →
        ∀ h ∈ hashes, c ≠ "picked/" ++ h) :
    filterCommitsToApply (afterRun env branch hashes) hashes branch = [] := by
  have hpicked_sub : (filterCommitsToApply env hashes branch).Sublist hashes := by
    rw [filterCommitsToApply_eq]
    exact List.filter_sublist hashes
  have hhist : (afterRun env branch hashes).hist branch
      = (filterCommitsToApply env hashes branch).map (fun h => "picked/" ++ h)
        ++ env.hist branch := by
    simp [afterRun]
  have hlen' : ((afterRun env branch hashes).hist branch).length ≤ 500 := by
    rw [hhist, List.length_append, List.length_map]
    have := hpicked_sub.length_le
    omega
  have htake : ((afterRun env branch hashes).hist branch).take 500
      = (afterRun env branch hashes).hist branch :=
    List.take_of_length_le hlen'
  have hlog' : (afterRun env branch hashes).logOk branch = true := hlog
  rw [filterCommitsToApply_eq]
  refine List.filter_eq_nil_iff.2 ?_
  intro h hh
  obtain ⟨p, hp, hpne⟩ := hfp h hh
  suffices happ : isAppliedFinders (afterRun env branch hashes) h branch = true by
    simp [happ]
  have hpatch_h : getPatchId (afterRun env branch hashes) h = some p := by
    unfold getPatchId
    rw [afterRun_patchOut_eq env branch hashes h
      (fun h' hh' => hfresh h (Or.inr hh) h' (hpicked_sub.subset hh'))]
    exact hp
  have hmem : p ∈ getRecentPatchIds (afterRun env branch hashes) branch 500 := by
    refine (mem_getRecentPatchIds _ branch 500 p).2 ⟨hlog', ?_⟩
    rw [htake, hhist]
    by_cases hap : isAppliedFinders env h branch = true
    · have hcontains : (getRecentPatchIds env branch 500).contains p = true := by
        unfold isAppliedFinders at hap
        rw [hp] at hap
        rw [Bool.and_eq_true] at hap
        exact hap.2
      have hpmem : p ∈ getRecentPatchIds env branch 500 := by
        simpa using hcontains
      obtain ⟨_, c, hcmem, hcp, _⟩ := (mem_getRecentPatchIds env branch 500 p).1 hpmem
      have hchist : c ∈ env.hist branch := List.mem_of_mem_take hcmem
      refine ⟨c, List.mem_append_right _ hchist, ?_, hpne⟩
      unfold getPatchId
      rw [afterRun_patchOut_eq env branch hashes c
        (fun h' hh' => hfresh c (Or.inl hchist) h' (hpicked_sub.subset hh'))]
      unfold getPatchId at hcp
      exact hcp
    · have hhp : h ∈ filterCommitsToApply env hashes branch := by
        rw [filterCommitsToApply_eq]
        refine List.mem_filter.2 ⟨hh, ?_⟩
        simp only [Bool.not_eq_true'] at hap ⊢
        exact Bool.not_eq_true _ ▸ (by simpa using hap)
      refine ⟨"picked/" ++ h, List.mem_append_left _ (List.mem_map_of_mem _ hhp), ?_, hpne⟩
      unfold getPatchId
      rw [afterRun_patchOut_picked env branch hashes h hhp]
      exact hp
  unfold isAppliedFinders
  rw [hpatch_h]
  simp only [Bool.and_eq_true]
  exact ⟨by simpa using hpne, by simpa using hmem⟩

/-- C7 witness: in the one-commit repository `envRep`, after replicating
`c1` onto `main`, the second filtering pass selects nothing. -/
theorem replication_idempotent_witness :
    filterCommitsToApply (afterRun envRep "main" ["c1"]) ["c1"] "main" = [] := by
  refine replication_idempotent envRep "main" ["c1"] rfl ?_ (by decide) ?_
  · intro h hh
    simp only [List.mem_singleton] at hh
    subst hh
    exact ⟨"P", by decide, by decide⟩
  · intro c hc h hh
    simp only [List.mem_singleton] at hh
    subst hh
    have hc' : c = "m1" ∨ c = "c1" := by
      rcases hc with hc | hc
      · left
        simpa [envRep] using hc
      · right
        simpa using hc
    rcases hc' with hc' | hc' <;> subst hc' <;> decide

/-- C1: the safety gate does not stop the workflows.  On a workspace with
a `CHERRY_PICK_HEAD` marker, `isRepositoryInSafeState` reports unsafe, yet
both `handleCherryPick` and `handleCreateWithPick` — which await the probe
and discard its boolean — go on to run mutating operations (the target
branch checkouts, and the cherry-pick itself in the first run). -/
theorem safety_gate_not_enforced :
    isRepositoryInSafeState stBlocked = false
    ∧ (GitOp.checkout "dev")
        ∈ (handleCherryPick stBlocked genvBare itersPickOk noUpstream true
            ["dev"] ["c1"] "main" "origin" false).trace
    ∧ ((handleCherryPick stBlocked genvBare itersPickOk noUpstream true
          ["dev"] ["c1"] "main" "origin" false).trace.any GitOp.isMutating)
        = true
    ∧ (GitOp.checkout "develop")
        ∈ (handleCreateWithPick stBlocked genvBare itersPickOk noUpstream
            summaryAB (fun _ => true) true [taskA] "main" "origin"
            false).trace := by
  decide

/-- C2: the fingerprint scan depth is not the configured one.  In
`envDeep`, the only content equivalent of commit `src` sits 35 commits
deep on branch `release`.  The source `filterCommitsToApply` finds it
(its `getRecentPatchIds` walk uses the hard default of 500, and the
function has no depth parameter to receive `patchIdCheckDepth`), while
the spec-modelled filter at the documented default depth 30 would retain
the commit for replication. -/
theorem scan_depth_not_configured :
    filterCommitsToApply envDeep ["src"] "release" = []
    ∧ specFilterUnapplied envDeep ["src"] "release" 30 = ["src"] := by
  decide

/-- C3 counterexample: two selected tasks; the first one's `newBranch`
already exists and the user declines to reuse it.  The handler returns
early — the run produces no step report (so nothing is recorded as a
warning) and the second task is never processed (its base branch is never
checked out). -/
theorem decline_skips_remaining_tasks :
    handleCreateWithPick stClean genvBare itersPickOk noUpstream summaryAB
      declineAll true [taskA, taskB] "main" "origin" false
      = .earlyExit [.statusProbe, .checkout "develop", .checkout "main"]
    ∧ (GitOp.checkout "base-b")
        ∉ (handleCreateWithPick stClean genvBare itersPickOk noUpstream
            summaryAB declineAll true [taskA, taskB] "main" "origin"
            false).trace := by
  decide

/-- C3 (amended): in the create-then-replicate workflow, when the first
pending task's `newBranch` is already in use and the user declines to
reuse it, the handler logs a warning, checks the original branch back
out, and returns from the whole step: no step report is produced, the
declined task is recorded nowhere, and none of the remaining tasks is
processed (the run's outcome is independent of them). -/
theorem decline_returns_early (st : SafetyState) (genv : GitEnv)
    (iters : String → List IterEnv) (tracked : String → Bool)
    (taskSummary : CreationTask → Option BranchSummary)
    (reuse : CreationTask → Bool) (restoreOk : Bool) (task : CreationTask)
    (rest : List CreationTask) (originalBranch remote : String)
    (shouldPush : Bool)
    (hinuse : isBranchNameInUse (taskSummary task) task.newBranch = true)
    (hdecline : reuse task = false) :
    handleCreateWithPick st genv iters tracked taskSummary reuse restoreOk
      (task :: rest) originalBranch remote shouldPush
      = .earlyExit (.statusProbe ::
          (prepareBranchOps tracked task.baseBranch remote
            ++ [.checkout originalBranch])) := by
  unfold handleCreateWithPick cwpTaskLoop
  simp [cwpReady, hinuse, hdecline]

/-- C3 witness: the amended theorem applied to the concrete two-task run
of the counterexample. -/
theorem decline_returns_early_witness :
    handleCreateWithPick stClean genvBare itersPickOk noUpstream summaryAB
      declineAll true [taskA, taskB] "main" "origin" false
      = .earlyExit (.statusProbe ::
          (prepareBranchOps noUpstream taskA.baseBranch "origin"
            ++ [.checkout "main"])) :=
  decline_returns_early stClean genvBare itersPickOk noUpstream summaryAB
    declineAll true taskA [taskB] "main" "origin" false (by decide)
    (by decide)

/-- C4: per-commit outcomes of the recovery state machine driven by
`performCherryPickFlow`.  For a single-commit apply attempt:
a successful apply that moved HEAD is handled with `hasChanges = true`;
a successful apply that left HEAD unchanged is handled with
`hasChanges = false` and no error; a failure whose message says the
previous cherry-pick is now empty is auto-skipped (handled, no prompt);
and a conflict-classified failure answered `continue` whose continue
attempt fails with an "empty" message is likewise auto-skipped, yielding
handled with `hasChanges = false` and no second prompt. -/
theorem flow_per_commit_outcomes (iters : String → List IterEnv)
    (h : String) :
    (∀ d c rest, iters h = ⟨.success true, d, c⟩ :: rest →
       performCherryPickFlow iters [h] false
         = (.ok true, 0, [.cherryPick h]))
    ∧ (∀ d c rest, iters h = ⟨.success false, d, c⟩ :: rest →
       performCherryPickFlow iters [h] false
         = (.ok false, 0, [.cherryPick h]))
    ∧ (∀ msg d c rest, iters h = ⟨.failure msg, d, c⟩ :: rest →
       includesSub (jsToLower msg) "the previous cherry-pick is now empty"
         = true →
       performCherryPickFlow iters [h] false
         = (.ok false, 0, [.cherryPick h, .cherryPickSkip]))
    ∧ (∀ msg cmsg rest, iters h = ⟨.failure msg, .cont, .fail cmsg⟩ :: rest →
       includesSub (jsToLower msg) "the previous cherry-pick is now empty"
         = false →
       (includesSub (jsToLower msg) "conflict"
         || includesSub (jsToLower msg) "could not apply") = true →
       includesSub (jsToLower cmsg) "empty" = true →
       performCherryPickFlow iters [h] false
         = (.ok false, 1,
             [.cherryPick h, .cherryPickContinue, .cherryPickSkip])) := by
  refine ⟨?_, ?_, ?_, ?_⟩
  · intro d c rest hit
    simp [performCherryPickFlow, resolveLoop, hit]
  · intro d c rest hit
    simp [performCherryPickFlow, resolveLoop, hit]
  · intro msg d c rest hit hemp
    simp [performCherryPickFlow, resolveLoop, hit, hemp]
  · intro msg cmsg rest hit hemp _hconf hcemp
    simp [performCherryPickFlow, resolveLoop, hit, hemp, hcemp]

/-- C4 witness: the four scenarios instantiated with concrete scripts and
git messages. -/
theorem flow_per_commit_outcomes_witness :
    performCherryPickFlow itersPickOk ["c1"] false
      = (.ok true, 0, [.cherryPick "c1"])
    ∧ performCherryPickFlow itersNoOp ["c1"] false
      = (.ok false, 0, [.cherryPick "c1"])
    ∧ performCherryPickFlow itersEmptyPick ["c1"] false
      = (.ok false, 0, [.cherryPick "c1", .cherryPickSkip])
    ∧ performCherryPickFlow itersContEmpty ["c1"] false
      = (.ok false, 1,
          [.cherryPick "c1", .cherryPickContinue, .cherryPickSkip]) :=
  ⟨(flow_per_commit_outcomes itersPickOk "c1").1 _ _ _ rfl,
   (flow_per_commit_outcomes itersNoOp "c1").2.1 _ _ _ rfl,
   (flow_per_commit_outcomes itersEmptyPick "c1").2.2.1 _ _ _ _ rfl
     (by decide),
   (flow_per_commit_outcomes itersContEmpty "c1").2.2.2 _ _ _ rfl
     (by decide) (by decide) (by decide)⟩

/-- C5 counterexample: a literal-list `BranchSpec` is returned as given,
duplicates included, so the resolved set is not duplicate-free for every
`BranchSpec`. -/
theorem resolve_list_keeps_duplicates :
    resolveTargetBranches ⟨[], fun _ => none⟩
      (TargetBranches.list ["dev", "dev"]) = .ok ["dev", "dev"]
    ∧ ¬ (["dev", "dev"] : List String).Nodup :=
  ⟨rfl, by decide⟩

/-- Set-style insertion (append only when absent) preserves `Nodup`
through the branch-matching fold. -/
theorem foldl_insert_nodup (test : String → Bool) (l : List String) :
    ∀ acc : List String, acc.Nodup →
      (l.foldl
        (fun acc branch =>
          if test branch then
            if branch ∈ acc then acc else acc ++ [branch]
          else acc)
        acc).Nodup := by
  induction l with
  | nil => intro acc h; exact h
  | cons b l ih =>
    intro acc h
    rw [List.foldl_cons]
    apply ih
    by_cases ht : test b
    · simp only [if_pos ht]
      by_cases hm : b ∈ acc
      · simp [hm, h]
      · simp only [if_neg hm]
        simp [List.nodup_append, h, hm]
    · simp [ht, h]

/-- The regex-matching loop keeps its accumulator duplicate-free. -/
theorem regexMatchLoop_nodup (env : ResolveEnv) (allBranches : List String) :
    ∀ (pats acc l : List String), acc.Nodup →
      regexMatchLoop env allBranches pats acc = .ok l → l.Nodup := by
  intro pats
  induction pats with
  | nil =>
    intro acc l h hl
    simp only [regexMatchLoop] at hl
    cases hl
    exact h
  | cons p rest ih =>
    intro acc l h hl
    simp only [regexMatchLoop] at hl
    cases hcomp : env.compile p with
    | none =>
      rw [hcomp] at hl
      cases hl
    | some test =>
      rw [hcomp] at hl
      exact ih _ l (foldl_insert_nodup test allBranches acc h) hl

/-- C5 (amended): the duplicate-freedom guarantee holds for the literal
single-name form and for regex resolution, whose result is built by set
insertion; a literal list (and likewise a non-regex pattern object) is
returned exactly as given, so it contains duplicates iff the
configuration did. -/
theorem resolve_nodup_amended (env : ResolveEnv) :
    (∀ name l, resolveTargetBranches env (.str name) = .ok l → l.Nodup)
    ∧ (∀ patterns l,
        resolveTargetBranches env (.pattern patterns true) = .ok l →
          l.Nodup)
    ∧ (∀ names, resolveTargetBranches env (.list names) = .ok names)
    ∧ (∀ patterns,
        resolveTargetBranches env (.pattern patterns false) = .ok patterns) := by
  refine ⟨?_, ?_, fun names => rfl, fun patterns => rfl⟩
  · intro name l hl
    simp only [resolveTargetBranches] at hl
    cases hl
    exact List.nodup_singleton name
  · intro patterns l hl
    simp only [resolveTargetBranches, Bool.not_true, Bool.false_eq_true,
      if_false] at hl
    exact regexMatchLoop_nodup env (getAllBranchNames env.refs) patterns []
      l List.nodup_nil hl

/-- C5 witness: the spec §8 regex example — branches
`release-a, release-b, hotfix-a` with pattern `^release-` resolve to the
two release branches, and the theorem yields that the result is
duplicate-free. -/
theorem resolve_nodup_amended_witness :
    resolveTargetBranches renvRelease
      (TargetBranches.pattern ["^release-"] true)
      = .ok ["release-a", "release-b"]
    ∧ (["release-a", "release-b"] : List String).Nodup :=
  ⟨rfl,
   (resolve_nodup_amended renvRelease).2.1 ["^release-"]
     ["release-a", "release-b"] rfl⟩

/-- C8 counterexample: a branch without an upstream is pushed, but when
that push fails the item is recorded as a failure — refuting "always
recorded as a success" for untracked branches. -/
theorem push_untracked_failure_recorded :
    (handlePush pushEnvUntrackedFail true ["solo"] "main" "origin").1
      = ⟨[], [], ["solo: push failed"]⟩
    ∧ (GitOp.push "origin" "solo")
        ∈ (handlePush pushEnvUntrackedFail true ["solo"] "main"
            "origin").2.2 := by
  decide

/-- C8 (amended): per-branch push guard of `handlePush`.  A tracked
branch behind its upstream is recorded as failed with the explicit
pull/rebase-first reason and no push subprocess is invoked; a tracked
branch neither behind nor ahead is recorded as a successful no-op (also
surfaced in the warning bucket), not a failure; a tracked branch ahead is
pushed; a branch with no upstream is pushed directly (with upstream set)
and is recorded as a success when that push succeeds — a failing push is
recorded as the item's failure. -/
theorem push_guard_amended (env : String → PushBranchEnv)
    (restoreOk : Bool) (branch orig remote : String) :
    ((env branch).checkoutOk = true → (env branch).tracked = true →
      (env branch).fetchOk = true → 0 < (env branch).behind →
      (handlePush env restoreOk [branch] orig remote).1
        = ⟨[], [], [branch ++ ": " ++ behindReason (env branch).behind]⟩
      ∧ (GitOp.push remote branch)
          ∉ (handlePush env restoreOk [branch] orig remote).2.2)
    ∧ ((env branch).checkoutOk = true → (env branch).tracked = true →
      (env branch).fetchOk = true → (env branch).behind = 0 →
      (env branch).ahead = 0 →
      (handlePush env restoreOk [branch] orig remote).1
        = ⟨[branch ++ " (up-to-date)"], [branch ++ " (up-to-date)"], []⟩)
    ∧ ((env branch).checkoutOk = true → (env branch).tracked = true →
      (env branch).fetchOk = true → (env branch).behind = 0 →
      0 < (env branch).ahead → (env branch).pushOk = true →
      (handlePush env restoreOk [branch] orig remote).1 = ⟨[branch], [], []⟩
      ∧ (GitOp.push remote branch)
          ∈ (handlePush env restoreOk [branch] orig remote).2.2)
    ∧ ((env branch).checkoutOk = true → (env branch).tracked = false →
      (env branch).pushOk = true →
      (handlePush env restoreOk [branch] orig remote).1 = ⟨[branch], [], []⟩
      ∧ (GitOp.push remote branch)
          ∈ (handlePush env restoreOk [branch] orig remote).2.2)
    ∧ ((env branch).checkoutOk = true → (env branch).tracked = false →
      (env branch).pushOk = false →
      (handlePush env restoreOk [branch] orig remote).1
        = ⟨[], [], [branch ++ ": push failed"]⟩) := by
  refine ⟨?_, ?_, ?_, ?_, ?_⟩
  · intro h1 h2 h3 h4
    constructor
    · simp [handlePush, pushLoop, pushBranchStep, h1, h2, h3, h4,
        Nat.pos_iff_ne_zero.1 h4]
    · simp [handlePush, pushLoop, pushBranchStep, reportAndFinalizeStep,
        safeCheckoutOriginalBranch, h1, h2, h3, h4]
  · intro h1 h2 h3 h4 h5
    simp [handlePush, pushLoop, pushBranchStep, h1, h2, h3, h4, h5]
  · intro h1 h2 h3 h4 h5 h6
    constructor
    · simp [handlePush, pushLoop, pushBranchStep, h1, h2, h3, h4,
        Nat.pos_iff_ne_zero.1 h5, h6]
    · simp [handlePush, pushLoop, pushBranchStep, reportAndFinalizeStep,
        safeCheckoutOriginalBranch, h1, h2, h3, h4,
        Nat.pos_iff_ne_zero.1 h5, h6]
  · intro h1 h2 h3
    constructor
    · simp [handlePush, pushLoop, pushBranchStep, h1, h2, h3]
    · simp [handlePush, pushLoop, pushBranchStep, reportAndFinalizeStep,
        safeCheckoutOriginalBranch, h1, h2, h3]
  · intro h1 h2 h3
    simp [handlePush, pushLoop, pushBranchStep, h1, h2, h3,
      String.append_assoc]

/-- C8 witness: the spec §8 guard example — a branch two commits behind
is recorded as failed with the pull-first reason and no push is invoked. -/
theorem push_guard_amended_witness :
    (handlePush pushEnvBehindTwo true ["rel"] "main" "origin").1
      = ⟨[], [], ["rel: " ++ behindReason 2]⟩
    ∧ (GitOp.push "origin" "rel")
        ∉ (handlePush pushEnvBehindTwo true ["rel"] "main" "origin").2.2 :=
  (push_guard_amended pushEnvBehindTwo true "rel" "main" "origin").1
    rfl rfl rfl (by decide)

/-- `combineItem` yields an early return only when the tail result was
one, with the step's operations prepended. -/
theorem combineItem_earlyReturn (label : String) (failed : Bool)
    (tr : List GitOp) (rest : ItemLoopOut) (t : List GitOp)
    (h : combineItem label failed tr rest = .earlyReturn t) :
    ∃ t', rest = .earlyReturn t' ∧ t = tr ++ t' := by
  cases rest with
  | completed s f t0 =>
    cases failed <;> simp [combineItem] at h
  | earlyReturn t0 =>
    simp only [combineItem, ItemLoopOut.earlyReturn.injEq] at h
    exact ⟨t0, rfl, h.symm⟩
  | ranOut t0 => simp [combineItem] at h

/-- The replicate-to-branches loop has no early-return path. -/
theorem cherryPickLoop_no_earlyReturn (genv : GitEnv)
    (iters : String → List IterEnv) (tracked : String → Bool)
    (hashes : List String) (remote : String) (shouldPush : Bool) :
    ∀ (branches : List String) (t : List GitOp),
      cherryPickLoop genv iters tracked hashes remote shouldPush branches
        ≠ .earlyReturn t := by
  intro branches
  induction branches with
  | nil => intro t ht; simp [cherryPickLoop] at ht
  | cons branch rest ih =>
    intro t ht
    simp only [cherryPickLoop] at ht
    by_cases hempty :
        (filterCommitsToApply genv hashes branch).isEmpty = true
    · rw [if_pos hempty] at ht
      obtain ⟨t', hrest, -⟩ := combineItem_earlyReturn _ _ _ _ _ ht
      exact ih t' hrest
    · rw [if_neg hempty] at ht
      rcases hflow : performCherryPickFlow iters
          (filterCommitsToApply genv hashes branch) false with ⟨fo, fp, ftr⟩
      rw [hflow] at ht
      cases fo with
      | ok hc =>
        obtain ⟨t', hrest, -⟩ := combineItem_earlyReturn _ _ _ _ _ ht
        exact ih t' hrest
      | err msg =>
        obtain ⟨t', hrest, -⟩ := combineItem_earlyReturn _ _ _ _ _ ht
        exact ih t' hrest
      | fuelOut => cases ht

/-- Every early return of the create-then-replicate task loop has the
original-branch checkout as one of its recorded operations. -/
theorem cwpLoop_earlyReturn_restores (genv : GitEnv)
    (iters : String → List IterEnv) (tracked : String → Bool)
    (taskSummary : CreationTask → Option BranchSummary)
    (reuse : CreationTask → Bool) (remote originalBranch : String)
    (shouldPush : Bool) :
    ∀ (tasks : List CreationTask) (t : List GitOp),
      cwpTaskLoop genv iters tracked taskSummary reuse remote originalBranch
        shouldPush tasks = .earlyReturn t →
      (GitOp.checkout originalBranch) ∈ t := by
  intro tasks
  induction tasks with
  | nil => intro t ht; simp [cwpTaskLoop] at ht
  | cons task rest ih =>
    intro t ht
    simp only [cwpTaskLoop] at ht
    rcases hready : cwpReady tracked taskSummary reuse remote task
        with _ | prep
    · rw [hready] at ht
      cases ht
      simp
    · rw [hready] at ht
      dsimp only at ht
      by_cases hempty :
          (filterCommitsToApply genv task.commitHashes task.newBranch).isEmpty
            = true
      · rw [if_pos hempty] at ht
        obtain ⟨t', hrest, hteq⟩ := combineItem_earlyReturn _ _ _ _ _ ht
        subst hteq
        exact List.mem_append_right _ (ih t' hrest)
      · rw [if_neg hempty] at ht
        rcases hflow : performCherryPickFlow iters
            (filterCommitsToApply genv task.commitHashes task.newBranch)
            false with ⟨fo, fp, ftr⟩
        rw [hflow] at ht
        cases fo with
        | ok hc =>
          obtain ⟨t', hrest, hteq⟩ := combineItem_earlyReturn _ _ _ _ _ ht
          subst hteq
          exact List.mem_append_right _ (ih t' hrest)
        | err msg =>
          obtain ⟨t', hrest, hteq⟩ := combineItem_earlyReturn _ _ _ _ _ ht
          subst hteq
          exact List.mem_append_right _ (ih t' hrest)
        | fuelOut => cases ht

/-- C9: original-branch restoration.  `reportAndFinalizeStep` always
attempts the restoration checkout, its step verdict is determined solely
by the failed-item bucket (a failing restoration only raises the
standalone warning flag and never changes the verdict), the push
workflow's report is identical whether or not the restoration succeeds,
and every terminating run of the push, replicate-to-branches, and
create-then-replicate workflows that recorded an original branch (a
nonempty selection) has the original-branch checkout attempt in its
operation trace — the create workflow's decline-to-reuse early return
included. -/
theorem restoration_on_all_paths :
    (∀ (restoreOk : Bool) (r : ReportLists) (orig : String),
       (reportAndFinalizeStep restoreOk r orig).trace = [.checkout orig]
       ∧ (reportAndFinalizeStep restoreOk r orig).stepSucceeded
           = r.failedItems.isEmpty
       ∧ (reportAndFinalizeStep restoreOk r orig).restorationWarned
           = !restoreOk)
    ∧ (∀ (env : String → PushBranchEnv) (restoreOk : Bool)
        (branches : List String) (orig remote : String),
       (GitOp.checkout orig)
           ∈ (handlePush env restoreOk branches orig remote).2.2
       ∧ (handlePush env true branches orig remote).1
           = (handlePush env false branches orig remote).1)
    ∧ (∀ (st : SafetyState) (genv : GitEnv) (iters : String → List IterEnv)
        (tracked : String → Bool) (restoreOk : Bool)
        (branches hashes : List String) (orig remote : String)
        (shouldPush : Bool),
       branches ≠ [] →
       (handleCherryPick st genv iters tracked restoreOk branches hashes
           orig remote shouldPush).isRanOut = false →
       (GitOp.checkout orig)
         ∈ (handleCherryPick st genv iters tracked restoreOk branches
             hashes orig remote shouldPush).trace)
    ∧ (∀ (st : SafetyState) (genv : GitEnv) (iters : String → List IterEnv)
        (tracked : String → Bool)
        (taskSummary : CreationTask → Option BranchSummary)
        (reuse : CreationTask → Bool) (restoreOk : Bool)
        (tasks : List CreationTask) (orig remote : String)
        (shouldPush : Bool),
       tasks ≠ [] →
       (handleCreateWithPick st genv iters tracked taskSummary reuse
           restoreOk tasks orig remote shouldPush).isRanOut = false →
       (GitOp.checkout orig)
         ∈ (handleCreateWithPick st genv iters tracked taskSummary reuse
             restoreOk tasks orig remote shouldPush).trace) := by
  refine ⟨fun restoreOk r orig => ⟨rfl, rfl, rfl⟩, ?_, ?_, ?_⟩
  · intro env restoreOk branches orig remote
    rcases hpl : pushLoop env remote branches with ⟨r, tr⟩
    constructor
    · simp [handlePush, hpl, reportAndFinalizeStep,
        safeCheckoutOriginalBranch]
    · simp [handlePush, hpl]
  · intro st genv iters tracked restoreOk branches hashes orig remote
      shouldPush hne hran
    cases branches with
    | nil => exact absurd rfl hne
    | cons b bs =>
      rcases hloop : cherryPickLoop genv iters tracked hashes remote
          shouldPush (b :: bs) with ⟨s, f, tr⟩ | tr | tr
      · simp [handleCherryPick, hloop, StepRun.trace,
          reportAndFinalizeStep, safeCheckoutOriginalBranch]
      · exact absurd hloop
          (cherryPickLoop_no_earlyReturn genv iters tracked hashes remote
            shouldPush (b :: bs) tr)
      · rw [show (handleCherryPick st genv iters tracked restoreOk (b :: bs)
            hashes orig remote shouldPush)
              = .ranOut (.statusProbe :: tr) by
            simp [handleCherryPick, hloop]] at hran
        simp [StepRun.isRanOut] at hran
  · intro st genv iters tracked taskSummary reuse restoreOk tasks orig
      remote shouldPush hne hran
    cases tasks with
    | nil => exact absurd rfl hne
    | cons task ts =>
      rcases hloop : cwpTaskLoop genv iters tracked taskSummary reuse remote
          orig shouldPush (task :: ts) with ⟨s, f, tr⟩ | tr | tr
      · simp [handleCreateWithPick, hloop, StepRun.trace,
          reportAndFinalizeStep, safeCheckoutOriginalBranch]
      · have hmem := cwpLoop_earlyReturn_restores genv iters tracked
          taskSummary reuse remote orig shouldPush (task :: ts) tr hloop
        simp [handleCreateWithPick, hloop, StepRun.trace]
        exact hmem
      · rw [show (handleCreateWithPick st genv iters tracked taskSummary
            reuse restoreOk (task :: ts) orig remote shouldPush)
              = .ranOut (.statusProbe :: tr) by
            simp [handleCreateWithPick, hloop]] at hran
        simp [StepRun.isRanOut] at hran

/-- C9 witness: the restoration checkout appears in the traces of a
concrete replicate run and a concrete create-then-replicate run (the
latter exiting through the decline-to-reuse early return). -/
theorem restoration_on_all_paths_witness :
    (GitOp.checkout "main")
      ∈ (handleCherryPick stClean genvBare itersPickOk noUpstream true
          ["dev"] ["c1"] "main" "origin" false).trace
    ∧ (GitOp.checkout "main")
      ∈ (handleCreateWithPick stClean genvBare itersPickOk noUpstream
          summaryAB declineAll true [taskA] "main" "origin" false).trace :=
  ⟨restoration_on_all_paths.2.2.1 stClean genvBare itersPickOk noUpstream
     true ["dev"] ["c1"] "main" "origin" false (by decide) (by decide),
   restoration_on_all_paths.2.2.2 stClean genvBare itersPickOk noUpstream
     summaryAB declineAll true [taskA] "main" "origin" false (by decide)
     (by decide)⟩

/-- `prepareBranch` performs no branch creation. -/
theorem prep_no_create (tracked : String → Bool) (branch remote n b : String) :
    (GitOp.createBranch n b) ∉ prepareBranchOps tracked branch remote := by
  by_cases h : tracked branch <;> simp [prepareBranchOps, h]

/-- The per-commit resolution loop performs no branch creation. -/
theorem resolveLoop_no_create (hash n b : String) :
    ∀ (iters : List IterEnv) (hc : Bool),
      (GitOp.createBranch n b) ∉ (resolveLoop hash iters hc).2.2 := by
  intro iters
  induction iters with
  | nil => intro hc; simp [resolveLoop]
  | cons it rest ih =>
    intro hc
    rcases it with ⟨pick, dec, contR⟩
    cases pick with
    | success hcg => simp [resolveLoop]
    | failure msg =>
      by_cases hemp : includesSub (jsToLower msg)
          "the previous cherry-pick is now empty" = true
      · simp [resolveLoop, hemp]
      · cases dec with
        | cont =>
          cases contR with
          | ok => simp [resolveLoop, hemp]
          | fail cmsg =>
            by_cases hce : includesSub (jsToLower cmsg) "empty" = true
            · simp [resolveLoop, hemp, hce]
            · by_cases hcu : includesSub (jsToLower cmsg) "unmerged files"
                  = true
              · rcases hrl : resolveLoop hash rest hc with ⟨out, pr, tr⟩
                have hmem := ih hc
                rw [hrl] at hmem
                simp [resolveLoop, hemp, hce, hcu, hrl]
                simpa using hmem
              · simp [resolveLoop, hemp, hce, hcu]
        | skip => simp [resolveLoop, hemp]
        | abort => simp [resolveLoop, hemp]
        | retry =>
          rcases hrl : resolveLoop hash rest hc with ⟨out, pr, tr⟩
          have hmem := ih hc
          rw [hrl] at hmem
          simp [resolveLoop, hemp, hrl]
          simpa using hmem

/-- The cherry-pick flow performs no branch creation. -/
theorem flow_no_create (iters : String → List IterEnv) (n b : String) :
    ∀ (hashes : List String) (hc : Bool),
      (GitOp.createBranch n b) ∉ (performCherryPickFlow iters hashes hc).2.2 := by
  intro hashes
  induction hashes with
  | nil => intro hc; simp [performCherryPickFlow]
  | cons h rest ih =>
    intro hc
    rcases hrl : resolveLoop h (iters h) hc with ⟨out, pr, tr⟩
    have htr := resolveLoop_no_create h n b (iters h) hc
    rw [hrl] at htr
    cases out with
    | handled hc2 =>
      rcases hrec : performCherryPickFlow iters rest hc2 with ⟨out2, pr2, tr2⟩
      have hmem := ih hc2
      rw [hrec] at hmem
      simp [performCherryPickFlow, hrl, hrec]
      exact ⟨by simpa using htr, by simpa using hmem⟩
    | abortedErr msg =>
      simp [performCherryPickFlow, hrl]
      simpa using htr
    | fuelOut =>
      simp [performCherryPickFlow, hrl]
      simpa using htr

/-- C10: a failing branch enumeration is treated as "name in use".  When
`git branch -a` throws inside `isBranchNameInUse`, the function returns
`true` instead of propagating the error, and consequently a
create-then-replicate task whose existence check failed never goes
through `gitCreateBranchFrom`: the handler takes the ask-to-reuse path
(prepare-existing on consent, early return on decline), so no
branch-creation operation for that task appears in the run's trace. -/
theorem branch_check_failure_conservative :
    (∀ branchName : String, isBranchNameInUse none branchName = true)
    ∧ (∀ (st : SafetyState) (genv : GitEnv) (iters : String → List IterEnv)
        (tracked : String → Bool)
        (taskSummary : CreationTask → Option BranchSummary)
        (reuse : CreationTask → Bool) (restoreOk : Bool)
        (task : CreationTask) (orig remote : String) (shouldPush : Bool),
       taskSummary task = none →
       (GitOp.createBranch task.newBranch task.baseBranch)
         ∉ (handleCreateWithPick st genv iters tracked taskSummary reuse
             restoreOk [task] orig remote shouldPush).trace) := by
  constructor
  · intro branchName; rfl
  · intro st genv iters tracked tsum reuse restoreOk task orig remote
      shouldPush hnone
    have hinuse : isBranchNameInUse (tsum task) task.newBranch = true := by
      rw [hnone]
      rfl
    by_cases hreuse : reuse task = true
    · have hready : cwpReady tracked tsum reuse remote task
          = some (prepareBranchOps tracked task.baseBranch remote
              ++ prepareBranchOps tracked task.newBranch remote) := by
        simp [cwpReady, hinuse, hreuse]
      by_cases hempty :
          (filterCommitsToApply genv task.commitHashes task.newBranch).isEmpty
            = true
      · simp [handleCreateWithPick, cwpTaskLoop, hready, hempty, combineItem,
          StepRun.trace, reportAndFinalizeStep, safeCheckoutOriginalBranch,
          prep_no_create]
      · rcases hflow : performCherryPickFlow iters
            (filterCommitsToApply genv task.commitHashes task.newBranch)
            false with ⟨fo, fp, ftr⟩
        have hftr := flow_no_create iters task.newBranch task.baseBranch
          (filterCommitsToApply genv task.commitHashes task.newBranch) false
        rw [hflow] at hftr
        cases fo with
        | ok hc =>
          by_cases hpc : (shouldPush && hc) = true
          · simp [handleCreateWithPick, cwpTaskLoop, hready, hempty, hflow,
              hpc, combineItem, StepRun.trace, reportAndFinalizeStep,
              safeCheckoutOriginalBranch, prep_no_create]
            simpa using hftr
          · simp [handleCreateWithPick, cwpTaskLoop, hready, hempty, hflow,
              hpc, combineItem, StepRun.trace, reportAndFinalizeStep,
              safeCheckoutOriginalBranch, prep_no_create]
            simpa using hftr
        | err msg =>
          simp [handleCreateWithPick, cwpTaskLoop, hready, hempty, hflow,
            combineItem, StepRun.trace, reportAndFinalizeStep,
            safeCheckoutOriginalBranch, prep_no_create]
          simpa using hftr
        | fuelOut =>
          simp [handleCreateWithPick, cwpTaskLoop, hready, hempty, hflow,
            StepRun.trace, prep_no_create]
          simpa using hftr
    · have hready : cwpReady tracked tsum reuse remote task = none := by
        simp [cwpReady, hinuse, hreuse]
      simp [handleCreateWithPick, cwpTaskLoop, hready, StepRun.trace,
        prep_no_create]

/-- C10 witness: a task whose branch enumeration throws (`none` summary)
and whose user consents to reuse; the run's trace contains no
branch-creation operation for the task. -/
theorem branch_check_failure_conservative_witness :
    isBranchNameInUse none "feat-x" = true
    ∧ (GitOp.createBranch "feat-x" "base-x")
        ∉ (handleCreateWithPick stClean genvBare itersPickOk noUpstream
            (fun _ => none) (fun _ => true) true
            [⟨"base-x", "feat-x", ["c1"]⟩] "main" "origin" false).trace :=
  ⟨branch_check_failure_conservative.1 "feat-x",
   branch_check_failure_conservative.2 stClean genvBare itersPickOk
     noUpstream (fun _ => none) (fun _ => true) true
     ⟨"base-x", "feat-x", ["c1"]⟩ "main" "origin" false rfl⟩

end GitRitual
